import Mathlib

/-!
Verification of the kvraft server (`src/kvraft/server.go`): a replicated
key-value service layered on a Raft-style consensus module.  The Go maps
`state : map[string]string`, `index : map[int]int64` and
`applied : map[int64]bool` are embedded as association lists with
Go's zero-value lookup semantics (`""`, `0`, `false` for absent keys).
The background applier (`applyRoutine`), the request handlers (`Get`,
`PutAppend`) and the snapshot restore (`readPersist`) are embedded as pure
functions of the state they observe; external calls (`rf.Start`, the
timeout clock, `persister.RaftStateSize`) become explicit parameters.
-/

namespace KVRaft

/-- Association-list map, the embedding of a Go `map`.  Lookup returns the
first binding of the key. -/
def lookupA {α β : Type} [DecidableEq α] : List (α × β) → α → Option β
  | [], _ => none
  | (k, v) :: rest, a => if k = a then some v else lookupA rest a

/-- Go map read `m[a]`: the stored value, or the zero value `d` when the key
is absent. -/
def getA {α β : Type} [DecidableEq α] (m : List (α × β)) (a : α) (d : β) : β :=
  (lookupA m a).getD d

/-- Go map write `m[a] = b`: replace the binding if present, append it
otherwise. -/
def insertA {α β : Type} [DecidableEq α] : List (α × β) → α → β → List (α × β)
  | [], a, b => [(a, b)]
  | (k, v) :: rest, a, b =>
      if k = a then (a, b) :: rest else (k, v) :: insertA rest a b

@[simp] theorem lookupA_insertA_self {α β : Type} [DecidableEq α]
    (m : List (α × β)) (a : α) (b : β) : lookupA (insertA m a b) a = some b := by
  induction m with
  | nil => simp [insertA, lookupA]
  | cons p rest ih =>
      obtain ⟨k, v⟩ := p
      by_cases h : k = a
      · simp [insertA, lookupA, h]
      · simp [insertA, lookupA, h, ih]

theorem lookupA_insertA_ne {α β : Type} [DecidableEq α]
    (m : List (α × β)) (a a' : α) (b : β) (h : a ≠ a') :
    lookupA (insertA m a b) a' = lookupA m a' := by
  induction m with
  | nil => simp [insertA, lookupA, h]
  | cons p rest ih =>
      obtain ⟨k, v⟩ := p
      by_cases hk : k = a
      · subst hk
        simp [insertA, lookupA, h]
      · by_cases hk' : k = a'
        · simp [insertA, lookupA, hk, hk', Ne.symm h]
        · simp [insertA, lookupA, hk, hk', ih]

@[simp] theorem getA_insertA_self {α β : Type} [DecidableEq α]
    (m : List (α × β)) (a : α) (b d : β) : getA (insertA m a b) a d = b := by
  simp [getA]

theorem getA_insertA_ne {α β : Type} [DecidableEq α]
    (m : List (α × β)) (a a' : α) (b d : β) (h : a ≠ a') :
    getA (insertA m a b) a' d = getA m a' d := by
  simp [getA, lookupA_insertA_ne m a a' b h]

/-- The `Op` struct placed into the consensus log (`server.go` lines 24-29).
`id` is the client request identifier (Go `int64`), `op` the kind string
(`"Put"`, `"Append"` or `"Get"`). -/
structure Op where
  id : Int
  key : String
  value : String
  op : String
  deriving DecidableEq, Repr

/-- The three replicated structures owned by a `KVServer`
(`server.go` lines 47-49) together with the cached `term` baseline
(line 50): the key-value `state`, the commit-index tracker `index`
(log position to applied id) and the deduplication set `applied`. -/
structure KVServer where
  state : List (String × String)
  index : List (Int × Int)
  applied : List (Int × Bool)
  term : Int
  deriving DecidableEq, Repr

/-- The fresh server state built by `StartKVServer`
(`server.go` lines 283-290): empty maps, term 1. -/
def initServer : KVServer :=
  { state := [], index := [], applied := [], term := 1 }

/-- The command branch of `applyRoutine` (`server.go` lines 103-121): if the
operation id is not yet in the dedup store, mutate `state` per the kind
(`Put` overwrites, `Append` concatenates, anything else — i.e. `Get` —
mutates nothing) and mark the id applied; in every case record
`index[commandIndex] = id`. -/
def applyCommand (kv : KVServer) (c : Op) (commandIndex : Int) : KVServer :=
  let kv1 :=
    if getA kv.applied c.id false = false then
      let st :=
        if c.op = "Put" then insertA kv.state c.key c.value
        else if c.op = "Append" then
          insertA kv.state c.key (getA kv.state c.key "" ++ c.value)
        else kv.state
      { kv with state := st, applied := insertA kv.applied c.id true }
    else kv
  { kv1 with index := insertA kv1.index commandIndex c.id }

/-- Fold a list of committed commands through the applier in delivery
order, each paired with its log position. -/
def applySeq (kv : KVServer) : List (Op × Int) → KVServer
  | [] => kv
  | (c, p) :: rest => applySeq (applyCommand kv c p) rest

example :
    (applySeq initServer
      [(⟨1, "k", "a", "Append"⟩, 1), (⟨2, "k", "b", "Append"⟩, 2)]).state
      = [("k", "ab")] := by decide

example :
    (applyCommand { initServer with applied := [(5, true)] }
      ⟨5, "k", "x", "Put"⟩ 3).state = [] := by decide

/-- The reply status constants of the kvraft RPC surface (`common.go` of the
same package): `OK`, `ErrNoKey`, `ErrWrongLeader`. -/
inductive Err
  | OK
  | ErrNoKey
  | ErrWrongLeader
  deriving DecidableEq, Repr

/-- Reply of the `Get` RPC handler: a status and a value (Go zero value `""`
when the handler fails). -/
structure GetReply where
  err : Err
  value : String
  deriving DecidableEq, Repr

/-- Reply of the `PutAppend` RPC handler: a status only. -/
structure PutAppendReply where
  err : Err
  deriving DecidableEq, Repr

/-- The triple returned by the consensus submit call `kv.rf.Start(command)`:
assigned log position, current term, leadership flag. -/
structure StartResult where
  index : Int
  term : Int
  isLeader : Bool
  deriving DecidableEq, Repr

/-- The `Get` handler (`server.go` lines 144-191) as a function of its
observations: `kv` is the server state at entry (supplying the cached term
baseline), `start` is what `rf.Start` returned, `timedOut` records whether
the wait loop ended by passing its 500 ms deadline, and `waitKv` is the
server state the handler sees once the wait ends.  An execution that leaves
the wait loop normally satisfies `getA waitKv.index start.index 0 ≠ 0`
(the loop condition just became false). -/
def Get (kv : KVServer) (start : StartResult) (timedOut : Bool)
    (waitKv : KVServer) (id : Int) (key : String) : GetReply :=
  if !start.isLeader || start.term > kv.term then
    { err := .ErrWrongLeader, value := "" }
  else if timedOut then
    { err := .ErrWrongLeader, value := "" }
  else if getA waitKv.index start.index 0 ≠ id then
    { err := .ErrWrongLeader, value := "" }
  else
    match lookupA waitKv.state key with
    | some v => { err := .OK, value := v }
    | none => { err := .ErrNoKey, value := "" }

/-- The `PutAppend` handler (`server.go` lines 193-236) as a function of the
same observations as `Get`; it never reads the value back, so a confirmed
commit replies `OK`. -/
def PutAppend (kv : KVServer) (start : StartResult) (timedOut : Bool)
    (waitKv : KVServer) (id : Int) : PutAppendReply :=
  if !start.isLeader || start.term > kv.term then
    { err := .ErrWrongLeader }
  else if timedOut then
    { err := .ErrWrongLeader }
  else if getA waitKv.index start.index 0 ≠ id then
    { err := .ErrWrongLeader }
  else
    { err := .OK }

/-- The `Snapshot` bundle encoded by the codec (`server.go` lines 31-35):
the three replicated structures as one unit. -/
structure Snapshot where
  State : List (String × String)
  Index : List (Int × Int)
  Applied : List (Int × Bool)
  deriving DecidableEq, Repr

/-- The snapshot bundle built from the current server state
(`server.go` lines 63-67). -/
def mkSnapshot (kv : KVServer) : Snapshot :=
  { State := kv.state, Index := kv.index, Applied := kv.applied }

/-- Modelled from the spec: the `labgob` (gob) byte encoding of a Go
`int64`/`int`, which is not under `src/`.  Sign token followed by
magnitude. -/
def encInt (i : Int) : List Nat :=
  if i < 0 then [1, (-i).toNat] else [0, i.toNat]

/-- Modelled from the spec: decoder matching `encInt`; consumes a prefix of
the stream and returns the rest, or fails. -/
def decInt : List Nat → Option (Int × List Nat)
  | 0 :: n :: r => some ((n : Int), r)
  | 1 :: n :: r => some (-(n : Int), r)
  | _ => none

/-- Modelled from the spec: byte encoding of a Go `bool`. -/
def encBool (b : Bool) : List Nat :=
  [if b then 1 else 0]

/-- Modelled from the spec: decoder matching `encBool`. -/
def decBool : List Nat → Option (Bool × List Nat)
  | 0 :: r => some (false, r)
  | 1 :: r => some (true, r)
  | _ => none

/-- Modelled from the spec: length-prefixed byte encoding of a Go
`string`. -/
def encString (s : String) : List Nat :=
  s.data.length :: s.data.map Char.toNat

/-- Modelled from the spec: read `n` character codes off the stream. -/
def decChars : Nat → List Nat → Option (List Char × List Nat)
  | 0, r => some ([], r)
  | _ + 1, [] => none
  | n + 1, c :: r => (decChars n r).map (fun p => (Char.ofNat c :: p.1, p.2))

/-- Modelled from the spec: decoder matching `encString`. -/
def decString : List Nat → Option (String × List Nat)
  | [] => none
  | n :: r => (decChars n r).map (fun p => (String.mk p.1, p.2))

/-- Modelled from the spec: length-prefixed encoding of a Go map, laid out
as its list of entries. -/
def encListWith {α : Type} (f : α → List Nat) (xs : List α) : List Nat :=
  xs.length :: (xs.map f).flatten

/-- Modelled from the spec: read `n` entries off the stream with the entry
decoder `f`. -/
def decCount {α : Type} (f : List Nat → Option (α × List Nat)) :
    Nat → List Nat → Option (List α × List Nat)
  | 0, r => some ([], r)
  | n + 1, r =>
      (f r).bind fun p =>
        (decCount f n p.2).map fun q => (p.1 :: q.1, q.2)

/-- Modelled from the spec: decoder matching `encListWith f`. -/
def decListWith {α : Type} (f : List Nat → Option (α × List Nat)) :
    List Nat → Option (List α × List Nat)
  | [] => none
  | n :: r => decCount f n r

/-- Modelled from the spec: entry encoder for the `State` map. -/
def encSS (p : String × String) : List Nat := encString p.1 ++ encString p.2

/-- Modelled from the spec: entry decoder for the `State` map. -/
def decSS (l : List Nat) : Option ((String × String) × List Nat) :=
  (decString l).bind fun p =>
    (decString p.2).map fun q => ((p.1, q.1), q.2)

/-- Modelled from the spec: entry encoder for the `Index` map. -/
def encII (p : Int × Int) : List Nat := encInt p.1 ++ encInt p.2

/-- Modelled from the spec: entry decoder for the `Index` map. -/
def decII (l : List Nat) : Option ((Int × Int) × List Nat) :=
  (decInt l).bind fun p =>
    (decInt p.2).map fun q => ((p.1, q.1), q.2)

/-- Modelled from the spec: entry encoder for the `Applied` map. -/
def encIB (p : Int × Bool) : List Nat := encInt p.1 ++ encBool p.2

/-- Modelled from the spec: entry decoder for the `Applied` map. -/
def decIB (l : List Nat) : Option ((Int × Bool) × List Nat) :=
  (decInt l).bind fun p =>
    (decBool p.2).map fun q => ((p.1, q.1), q.2)

/-- Modelled from the spec: the Snapshot Codec encoder
(`encoder.Encode(snapshot)` at `server.go` line 71 via `labgob`, which is
not under `src/`): the three structures serialized as one atomic bundle. -/
def encode (s : Snapshot) : List Nat :=
  encListWith encSS s.State ++ encListWith encII s.Index ++
    encListWith encIB s.Applied

/-- Modelled from the spec: the Snapshot Codec decoder
(`decoder.Decode(&decodeSnapshot)` at `server.go` line 87 via `labgob`):
recovers the whole bundle or fails; no partial result. -/
def decode (l : List Nat) : Option Snapshot :=
  (decListWith decSS l).bind fun p =>
    (decListWith decII p.2).bind fun q =>
      (decListWith decIB q.2).bind fun w =>
        if w.2 = [] then some ⟨p.1, q.1, w.1⟩ else none

/-- `readPersist` (`server.go` lines 77-94): absent/empty snapshot bytes
return with the server untouched; a decodable snapshot replaces the three
structures together; a failed decode panics (`none`). -/
def readPersist (kv : KVServer) (snapshot : List Nat) : Option KVServer :=
  if snapshot.length < 1 then some kv
  else
    match decode snapshot with
    | some s =>
        some { kv with state := s.State, index := s.Index, applied := s.Applied }
    | none => none

/-- One command-message iteration of `applyRoutine` including the snapshot
decision (`server.go` lines 103-127): apply the command, then, when
`maxraftstate` is not the `-1` sentinel and the raft log size exceeds it,
encode the three structures and submit them at this position
(`kv.snapshot(commandIndex)`, lines 60-75). -/
def applyStep (kv : KVServer) (maxraftstate raftStateSize : Int)
    (c : Op) (commandIndex : Int) : KVServer × Option (Int × List Nat) :=
  let kv1 := applyCommand kv c commandIndex
  if maxraftstate ≠ -1 ∧ raftStateSize > maxraftstate then
    (kv1, some (commandIndex, encode (mkSnapshot kv1)))
  else
    (kv1, none)

/-- A concrete committed-state sample: key `"k"` holds `"v"`, position 1
committed id 7 (used to evaluate the handler functions). -/
def sampleWaitKv : KVServer :=
  { state := [("k", "v")], index := [(1, 7)], applied := [(7, true)], term := 1 }

/-- A concrete successful `rf.Start` outcome at position 1, term 1. -/
def sampleStart : StartResult :=
  { index := 1, term := 1, isLeader := true }

example : decode (encode (mkSnapshot initServer)) = some (mkSnapshot initServer) := by decide

example :
    decode (encode ⟨[("k", "ab")], [(1, 7)], [(7, true)]⟩)
      = some ⟨[("k", "ab")], [(1, 7)], [(7, true)]⟩ := by decide

theorem decInt_encInt (i : Int) (r : List Nat) :
    decInt (encInt i ++ r) = some (i, r) := by
  by_cases h : i < 0
  · simp [encInt, decInt, h, Int.toNat_of_nonneg (by omega : (0 : Int) ≤ -i)]
  · simp [encInt, decInt, h, Int.toNat_of_nonneg (by omega : (0 : Int) ≤ i)]

theorem decBool_encBool (b : Bool) (r : List Nat) :
    decBool (encBool b ++ r) = some (b, r) := by
  cases b <;> simp [encBool, decBool]

theorem decChars_encChars (cs : List Char) (r : List Nat) :
    decChars cs.length (cs.map Char.toNat ++ r) = some (cs, r) := by
  induction cs with
  | nil => simp [decChars]
  | cons c rest ih => simp [decChars, ih, Char.ofNat_toNat]

theorem decString_encString (s : String) (r : List Nat) :
    decString (encString s ++ r) = some (s, r) := by
  cases s with
  | mk data => simp [encString, decString, decChars_encChars]

theorem decCount_encListWith {α : Type} (f : List Nat → Option (α × List Nat))
    (enc : α → List Nat) (h : ∀ x r, f (enc x ++ r) = some (x, r))
    (xs : List α) (r : List Nat) :
    decCount f xs.length ((xs.map enc).flatten ++ r) = some (xs, r) := by
  induction xs with
  | nil => simp [decCount]
  | cons x rest ih => simp [decCount, h, ih]

theorem decListWith_encListWith {α : Type} (f : List Nat → Option (α × List Nat))
    (enc : α → List Nat) (h : ∀ x r, f (enc x ++ r) = some (x, r))
    (xs : List α) (r : List Nat) :
    decListWith f (encListWith enc xs ++ r) = some (xs, r) := by
  simp [encListWith, decListWith, decCount_encListWith f enc h]

theorem decSS_encSS (p : String × String) (r : List Nat) :
    decSS (encSS p ++ r) = some (p, r) := by
  simp [encSS, decSS, decString_encString]

theorem decII_encII (p : Int × Int) (r : List Nat) :
    decII (encII p ++ r) = some (p, r) := by
  simp [encII, decII, decInt_encInt]

theorem decIB_encIB (p : Int × Bool) (r : List Nat) :
    decIB (encIB p ++ r) = some (p, r) := by
  simp [encIB, decIB, decInt_encInt, decBool_encBool]

/-- One write folded onto a value, mirroring the applier's switch
(`server.go` lines 112-117): `Put` replaces, `Append` concatenates,
anything else leaves the value. -/
def valueStep (v : String) (c : Op) : String :=
  if c.op = "Put" then c.value
  else if c.op = "Append" then v ++ c.value
  else v

theorem applyCommand_fresh (kv : KVServer) (c : Op) (p : Int)
    (h : getA kv.applied c.id false = false) :
    applyCommand kv c p =
      { state :=
          if c.op = "Put" then insertA kv.state c.key c.value
          else if c.op = "Append" then
            insertA kv.state c.key (getA kv.state c.key "" ++ c.value)
          else kv.state,
        index := insertA kv.index p c.id,
        applied := insertA kv.applied c.id true,
        term := kv.term } := by
  simp [applyCommand, h]

theorem applyCommand_dup (kv : KVServer) (c : Op) (p : Int)
    (h : getA kv.applied c.id false = true) :
    applyCommand kv c p = { kv with index := insertA kv.index p c.id } := by
  simp [applyCommand, h]

theorem getA_applyCommand_state (kv : KVServer) (c : Op) (p : Int) (k : String)
    (h : getA kv.applied c.id false = false) (hk : c.key = k)
    (hop : c.op = "Put" ∨ c.op = "Append") :
    getA (applyCommand kv c p).state k "" = valueStep (getA kv.state k "") c := by
  subst hk
  rcases hop with h1 | h1 <;>
    simp [applyCommand_fresh kv c p h, valueStep, h1]

theorem decode_encode (s : Snapshot) : decode (encode s) = some s := by
  have h1 := decListWith_encListWith decSS encSS decSS_encSS s.State
    (encListWith encII s.Index ++ encListWith encIB s.Applied)
  have h2 := decListWith_encListWith decII encII decII_encII s.Index
    (encListWith encIB s.Applied)
  have h3 := decListWith_encListWith decIB encIB decIB_encIB s.Applied []
  simp only [List.append_nil] at h3
  simp [decode, encode, h1, h2, h3]

/-- C1: a commit-stream command whose id is already marked in the
deduplication store leaves the key-value state (and the dedup store)
unchanged — no Put overwrite, no Append concatenation — yet still records
`tracker[position] = id`, exactly the tracker update of a first
application. -/
theorem C1_dedup_idempotent (kv : KVServer) (c : Op) (p : Int)
    (h : getA kv.applied c.id false = true) :
    applyCommand kv c p = { kv with index := insertA kv.index p c.id } :=
  applyCommand_dup kv c p h

theorem C1_dedup_idempotent_witness :
    getA ({ initServer with applied := [(5, true)] } : KVServer).applied 5 false
        = true ∧
    applyCommand { initServer with applied := [(5, true)] }
        ⟨5, "k", "x", "Put"⟩ 3
      = { { initServer with applied := [(5, true)] } with
          index := insertA ({ initServer with
            applied := [(5, true)] } : KVServer).index 3 5 } :=
  ⟨by decide,
    C1_dedup_idempotent { initServer with applied := [(5, true)] }
      ⟨5, "k", "x", "Put"⟩ 3 (by decide)⟩

/-- C2: a sequence of Put/Append commands with pairwise-distinct, not yet
applied ids, all on the same key, delivered to the applier in order, leaves
that key holding exactly the left fold of the operations over the initial
value, in delivery order. -/
theorem C2_order_preservation (kv : KVServer) (k : String)
    (cmds : List (Op × Int))
    (hids : (cmds.map (fun pc => pc.1.id)).Nodup)
    (hkey : ∀ pc ∈ cmds, pc.1.key = k)
    (hkind : ∀ pc ∈ cmds, pc.1.op = "Put" ∨ pc.1.op = "Append")
    (hfresh : ∀ pc ∈ cmds, getA kv.applied pc.1.id false = false) :
    getA (applySeq kv cmds).state k ""
      = cmds.foldl (fun v pc => valueStep v pc.1) (getA kv.state k "") := by
  induction cmds generalizing kv with
  | nil => simp [applySeq]
  | cons hd tl ih =>
      obtain ⟨c, p⟩ := hd
      have hfc : getA kv.applied c.id false = false :=
        hfresh (c, p) (List.mem_cons_self _ _)
      rw [List.map_cons] at hids
      obtain ⟨hnotin, htlnodup⟩ := List.nodup_cons.mp hids
      have happlied :
          (applyCommand kv c p).applied = insertA kv.applied c.id true := by
        rw [applyCommand_fresh kv c p hfc]
      have hstep := getA_applyCommand_state kv c p k hfc
        (hkey (c, p) (List.mem_cons_self _ _))
        (hkind (c, p) (List.mem_cons_self _ _))
      have htl := ih (applyCommand kv c p) htlnodup
        (fun pc hm => hkey pc (List.mem_cons_of_mem _ hm))
        (fun pc hm => hkind pc (List.mem_cons_of_mem _ hm))
        (fun pc hm => by
          have hne : c.id ≠ pc.1.id := by
            intro hEq
            exact hnotin (hEq ▸ List.mem_map_of_mem (fun q => q.1.id) hm)
          rw [happlied, getA_insertA_ne kv.applied c.id pc.1.id true false hne]
          exact hfresh pc (List.mem_cons_of_mem _ hm))
      simp only [applySeq, List.foldl_cons]
      rw [htl, hstep]

theorem C2_order_preservation_witness :
    (([(⟨1, "k", "a", "Append"⟩, 1), (⟨2, "k", "x", "Put"⟩, 2),
        (⟨3, "k", "b", "Append"⟩, 3)] :
        List (Op × Int)).map (fun pc => pc.1.id)).Nodup ∧
    getA (applySeq initServer
        [(⟨1, "k", "a", "Append"⟩, 1), (⟨2, "k", "x", "Put"⟩, 2),
          (⟨3, "k", "b", "Append"⟩, 3)]).state "k" ""
      = ([(⟨1, "k", "a", "Append"⟩, 1), (⟨2, "k", "x", "Put"⟩, 2),
          (⟨3, "k", "b", "Append"⟩, 3)] :
          List (Op × Int)).foldl (fun v pc => valueStep v pc.1)
          (getA initServer.state "k" "") :=
  ⟨by decide,
    C2_order_preservation initServer "k"
      [(⟨1, "k", "a", "Append"⟩, 1), (⟨2, "k", "x", "Put"⟩, 2),
        (⟨3, "k", "b", "Append"⟩, 3)]
      (by decide) (by decide) (by decide) (by decide)⟩

/-- C4: on a not-yet-applied operation, Put replaces the stored value and
Append concatenates onto it, an absent key reading as the empty string;
in particular `Append(k, "a")` then `Append(k, "b")` on an initially absent
key `k` leaves `"ab"`. -/
theorem C4_put_append_semantics :
    (∀ (kv : KVServer) (c : Op) (p : Int),
      getA kv.applied c.id false = false → c.op = "Put" →
        getA (applyCommand kv c p).state c.key "" = c.value) ∧
    (∀ (kv : KVServer) (c : Op) (p : Int),
      getA kv.applied c.id false = false → c.op = "Append" →
        getA (applyCommand kv c p).state c.key ""
          = getA kv.state c.key "" ++ c.value) ∧
    (∀ k : String,
      getA (applySeq initServer
        [(⟨1, k, "a", "Append"⟩, 1), (⟨2, k, "b", "Append"⟩, 2)]).state k ""
        = "ab") := by
  refine ⟨?_, ?_, ?_⟩
  · intro kv c p h hop
    have := getA_applyCommand_state kv c p c.key h rfl (Or.inl hop)
    rw [this]
    simp [valueStep, hop]
  · intro kv c p h hop
    have := getA_applyCommand_state kv c p c.key h rfl (Or.inr hop)
    rw [this]
    simp [valueStep, hop]
  · intro k
    simp [applySeq, applyCommand, getA, lookupA, insertA]

/-- C10: an absent or empty snapshot input (fewer than 1 byte) makes
`readPersist` return with the key-value state, the commit-index tracker and
the deduplication store all exactly as they were. -/
theorem C10_empty_snapshot_noop (kv : KVServer) (bytes : List Nat)
    (h : bytes.length < 1) : readPersist kv bytes = some kv := by
  simp [readPersist, h]

theorem C10_empty_snapshot_noop_witness :
    ([] : List Nat).length < 1 ∧ readPersist initServer [] = some initServer :=
  ⟨by decide, C10_empty_snapshot_noop initServer [] (by decide)⟩

/-- C3: a handler replies `ErrWrongLeader` exactly when one of four
conditions holds — the submit reports non-leadership, the returned term
exceeds the cached baseline, the bounded wait timed out, or the tracker
entry at the assigned position carries a different id — and in every other
execution `Get` replies `OK` or `ErrNoKey` and `PutAppend` replies `OK`. -/
theorem C3_wrongleader_conditions (kv : KVServer) (start : StartResult)
    (timedOut : Bool) (waitKv : KVServer) (id : Int) (key : String) :
    ((Get kv start timedOut waitKv id key).err = Err.ErrWrongLeader ↔
      (start.isLeader = false ∨ start.term > kv.term ∨ timedOut = true ∨
        getA waitKv.index start.index 0 ≠ id)) ∧
    ((PutAppend kv start timedOut waitKv id).err = Err.ErrWrongLeader ↔
      (start.isLeader = false ∨ start.term > kv.term ∨ timedOut = true ∨
        getA waitKv.index start.index 0 ≠ id)) ∧
    ((Get kv start timedOut waitKv id key).err ≠ Err.ErrWrongLeader →
      (Get kv start timedOut waitKv id key).err = Err.OK ∨
        (Get kv start timedOut waitKv id key).err = Err.ErrNoKey) ∧
    ((PutAppend kv start timedOut waitKv id).err ≠ Err.ErrWrongLeader →
      (PutAppend kv start timedOut waitKv id).err = Err.OK) := by
  by_cases h1 : start.isLeader <;>
    by_cases h2 : start.term > kv.term <;>
      cases timedOut <;>
        by_cases h3 : getA waitKv.index start.index 0 = id <;>
          cases h : lookupA waitKv.state key <;>
            simp [Get, PutAppend, h1, h2, h3, h]

/-- C5: the snapshot codec round-trips every triple of
{key-value state, commit-index tracker, deduplication store}, the empty
mappings included: decoding the encoder's bytes reproduces the triple. -/
theorem C5_snapshot_roundtrip (st : List (String × String))
    (ix : List (Int × Int)) (ap : List (Int × Bool)) :
    decode (encode ⟨st, ix, ap⟩) = some ⟨st, ix, ap⟩ :=
  decode_encode ⟨st, ix, ap⟩

/-- C6: a `Get` whose operation is confirmed committed at its position
(the tracker holds this call's id) replies `ErrNoKey` with value `""`
when the key is absent from the key-value state it observes, and `OK`
with the stored value when present. -/
theorem C6_get_result (kv waitKv : KVServer) (start : StartResult)
    (id : Int) (key : String)
    (hL : start.isLeader = true) (hT : ¬ start.term > kv.term)
    (hid : getA waitKv.index start.index 0 = id) :
    (lookupA waitKv.state key = none →
      Get kv start false waitKv id key
        = { err := Err.ErrNoKey, value := "" }) ∧
    (∀ v, lookupA waitKv.state key = some v →
      Get kv start false waitKv id key = { err := Err.OK, value := v }) := by
  constructor
  · intro h
    simp [Get, hL, hT, hid, h]
  · intro v h
    simp [Get, hL, hT, hid, h]

theorem C6_get_result_witness :
    sampleStart.isLeader = true ∧
    ¬ sampleStart.term > initServer.term ∧
    getA sampleWaitKv.index sampleStart.index 0 = 7 ∧
    ((lookupA sampleWaitKv.state "k" = none →
      Get initServer sampleStart false sampleWaitKv 7 "k"
        = { err := Err.ErrNoKey, value := "" }) ∧
    (∀ v, lookupA sampleWaitKv.state "k" = some v →
      Get initServer sampleStart false sampleWaitKv 7 "k"
        = { err := Err.OK, value := v })) :=
  ⟨rfl, by decide, by decide,
    C6_get_result initServer sampleWaitKv sampleStart 7 "k"
      rfl (by decide) (by decide)⟩

/-- C7: after applying the command at position `p`, the applier submits a
snapshot — the encoded bytes of the three post-application structures, at
position `p` — exactly when the threshold is not the `-1` sentinel and the
raft log size exceeds it; with threshold `-1` it never submits one. -/
theorem C7_snapshot_trigger (kv : KVServer) (maxraftstate raftStateSize : Int)
    (c : Op) (p : Int) :
    ((applyStep kv maxraftstate raftStateSize c p).2
        = some (p, encode (mkSnapshot (applyCommand kv c p))) ↔
      (maxraftstate ≠ -1 ∧ raftStateSize > maxraftstate)) ∧
    ((applyStep kv maxraftstate raftStateSize c p).2 ≠ none ↔
      (maxraftstate ≠ -1 ∧ raftStateSize > maxraftstate)) ∧
    (maxraftstate = -1 →
      (applyStep kv maxraftstate raftStateSize c p).2 = none) := by
  by_cases h : maxraftstate ≠ -1 ∧ raftStateSize > maxraftstate
  · refine ⟨by simp [applyStep, h], by simp [applyStep, h], ?_⟩
    intro hEq
    exact absurd hEq h.1
  · exact ⟨by simp [applyStep, h], by simp [applyStep, h],
      fun _ => by simp [applyStep, h]⟩

/-- C8: restoring from non-empty bytes that fail to decode aborts
(`panic`), installing nothing; a successful decode replaces the key-value
state, the commit-index tracker and the deduplication store together. -/
theorem C8_decode_failure_fatal :
    (∀ (kv : KVServer) (bytes : List Nat), bytes ≠ [] →
      decode bytes = none → readPersist kv bytes = none) ∧
    (∀ (kv : KVServer) (bytes : List Nat) (s : Snapshot), bytes ≠ [] →
      decode bytes = some s →
      readPersist kv bytes
        = some { kv with state := s.State, index := s.Index, applied := s.Applied }) := by
  constructor
  · intro kv bytes hne hdec
    have hlen : ¬ bytes.length < 1 := by
      have := List.length_pos.mpr hne
      omega
    simp [readPersist, hlen, hdec]
  · intro kv bytes s hne hdec
    have hlen : ¬ bytes.length < 1 := by
      have := List.length_pos.mpr hne
      omega
    simp [readPersist, hlen, hdec]

/-- C9: the wait loop's emptiness test conflates the recorded id `0` with
"no entry": a handler whose own id is `0` can only leave the loop by
timeout or see a mismatching tracker entry, so it always replies
`ErrWrongLeader` and never `OK`/`ErrNoKey` — even though the applier does
apply a fresh id-0 operation to the key-value state and records
`tracker[p] = 0`. -/
theorem C9_zero_id_never_observed :
    (∀ (kv waitKv : KVServer) (start : StartResult) (timedOut : Bool)
        (key : String),
      (timedOut = false → getA waitKv.index start.index 0 ≠ 0) →
      (Get kv start timedOut waitKv 0 key).err = Err.ErrWrongLeader) ∧
    (∀ (kv waitKv : KVServer) (start : StartResult) (timedOut : Bool),
      (timedOut = false → getA waitKv.index start.index 0 ≠ 0) →
      (PutAppend kv start timedOut waitKv 0).err = Err.ErrWrongLeader) ∧
    (∀ (kv : KVServer) (c : Op) (p : Int), c.id = 0 →
      getA kv.applied 0 false = false →
      (applyCommand kv c p).index = insertA kv.index p 0 ∧
      (applyCommand kv c p).applied = insertA kv.applied 0 true ∧
      (c.op = "Put" →
        (applyCommand kv c p).state = insertA kv.state c.key c.value)) := by
  refine ⟨?_, ?_, ?_⟩
  · intro kv waitKv start timedOut key hWait
    cases timedOut with
    | true =>
        by_cases h1 : !start.isLeader || start.term > kv.term <;>
          simp [Get, h1]
    | false =>
        have h3 := hWait rfl
        by_cases h1 : !start.isLeader || start.term > kv.term <;>
          simp [Get, h1, h3]
  · intro kv waitKv start timedOut hWait
    cases timedOut with
    | true =>
        by_cases h1 : !start.isLeader || start.term > kv.term <;>
          simp [PutAppend, h1]
    | false =>
        have h3 := hWait rfl
        by_cases h1 : !start.isLeader || start.term > kv.term <;>
          simp [PutAppend, h1, h3]
  · intro kv c p hc hfresh
    have h := applyCommand_fresh kv c p (hc ▸ hfresh)
    refine ⟨by rw [h, hc], by rw [h, hc], fun hop => ?_⟩
    rw [h]
    simp [hop]

end KVRaft
